import Mathlib

/-
  Verification development for the lnmonja telemetry platform.

  Shallow embedding of the server alert engine (internal/server/alert_engine.go),
  the storage query path (internal/storage/badger_store.go, internal/storage/tsdb.go),
  the storage key encoding, the agent network collector rate computation, and the
  gRPC ingest path (Register / StreamMetrics / processMetrics).

  Modelling conventions:
  - Go float64 metric values are modelled as rationals; all the comparisons and
    arithmetic exercised by the claims are exact in both representations for the
    inputs considered (no NaN, no overflow).
  - Go maps are modelled as association lists with unique keys; map assignment is
    aupdate, deletion is aremove, lookup is alookup.  Where map iteration order
    matters it is made an explicit list order, representing one possible order.
  - Wall-clock time is threaded explicitly as a nanosecond integer parameter in
    place of calls to time.Now.
  - Side effects (SaveAlert, sendNotification, WriteMetrics, ...) are recorded in
    explicit effect logs.
-/

set_option linter.unusedVariables false

namespace Lnmonja

/-! Association list helpers modelling Go map operations. -/

/-- Lookup in an association list, modelling a Go map read. -/
def alookup {β : Type} (k : String) : List (String × β) → Option β
  | [] => none
  | (k', v) :: rest => if k' = k then some v else alookup k rest

/-- Map assignment: replace the binding for the key, or append a new one. -/
def aupdate {β : Type} (k : String) (v : β) : List (String × β) → List (String × β)
  | [] => [(k, v)]
  | (k', v') :: rest => if k' = k then (k, v) :: rest else (k', v') :: aupdate k v rest

/-- Map deletion. -/
def aremove {β : Type} (k : String) : List (String × β) → List (String × β)
  | [] => []
  | (k', v') :: rest => if k' = k then aremove k rest else (k', v') :: aremove k rest

/-- Label maps carried on metrics, rules and alerts. -/
abbrev Labels := List (String × String)

/-- Read of a Go map of strings: a missing key yields the empty string. -/
def labelGet (l : Labels) (k : String) : String :=
  match l with
  | [] => ""
  | (k', v) :: rest => if k' = k then v else labelGet rest k

/-! Alert engine (internal/server/alert_engine.go).

    The engine state carries the activeAlerts table plus two effect logs:
    saved records the SaveAlert calls and notifs the sendNotification
    dispatches, each with the alert value passed at the call.  Labels and
    annotations do not influence any control flow in CheckMetrics, fireAlert
    or resolveAlert, so they are omitted from this state machine; the label
    aliasing of fireAlert is modelled separately below with an explicit heap. -/

/-- Alert lifecycle states (models.AlertState). -/
inductive AlertState
  | inactive
  | pending
  | firing
  | resolved
deriving DecidableEq, Repr

/-- An alert rule (AlertRule in alert_engine.go); forDur is the For duration in
    nanoseconds, threshold the float64 threshold as a rational. -/
structure AlertRule where
  name : String
  expression : String
  forDur : Int
  enabled : Bool
  threshold : ℚ
  operator : String
  metricName : String
deriving DecidableEq, Repr

/-- The fields of models.Alert read or written by the engine. -/
structure Alert where
  id : String
  name : String
  expression : String
  state : AlertState
  value : ℚ
  activeAt : Int
  resolvedAt : Option Int
deriving DecidableEq, Repr

/-- The fields of models.Metric read by the engine. -/
structure EMetric where
  name : String
  value : ℚ
deriving DecidableEq, Repr

/-- Engine state: the in-memory activeAlerts map keyed by nodeID:ruleName,
    plus effect logs for SaveAlert and sendNotification. -/
structure EngineState where
  activeAlerts : List (String × Alert)
  saved : List Alert
  notifs : List Alert
deriving DecidableEq, Repr

/-- The empty engine state. -/
def emptyEngine : EngineState := ⟨[], [], []⟩

/-- Alert key: fmt.Sprintf with nodeID, colon, rule name. -/
def alertKeyOf (nodeID ruleName : String) : String := nodeID ++ ":" ++ ruleName

/-- Embeds evaluateRule (alert_engine.go lines 148 to 165): compare the metric
    value to the threshold under the operator string; unknown operators yield
    false. -/
def evaluateRule (rule : AlertRule) (value : ℚ) : Bool :=
  if rule.operator = ">" then decide (value > rule.threshold)
  else if rule.operator = "<" then decide (value < rule.threshold)
  else if rule.operator = ">=" then decide (value ≥ rule.threshold)
  else if rule.operator = "<=" then decide (value ≤ rule.threshold)
  else if rule.operator = "==" then decide (value = rule.threshold)
  else if rule.operator = "!=" then decide (value ≠ rule.threshold)
  else false

/-- The six operator strings accepted by evaluateRule. -/
def validOperator (op : String) : Bool :=
  decide (op = ">" ∨ op = "<" ∨ op = ">=" ∨ op = "<=" ∨ op = "==" ∨ op = "!=")

/-- Embeds fireAlert (alert_engine.go lines 168 to 229).  now stands for the
    time.Now and time.Since calls.  If an alert already exists under the key:
    return unchanged while now minus activeAt is below For, otherwise update the
    value and persist (the state field is not touched and nothing is dispatched).
    If no alert exists: create one, pending, or firing with a notification when
    For is zero; persist it. -/
def fireAlert (now : Int) (nodeID : String) (rule : AlertRule) (metric : EMetric)
    (st : EngineState) : EngineState :=
  let alertKey := alertKeyOf nodeID rule.name
  match alookup alertKey st.activeAlerts with
  | some existing =>
      if now - existing.activeAt < rule.forDur then
        st
      else
        let existing' := { existing with value := metric.value }
        { st with activeAlerts := aupdate alertKey existing' st.activeAlerts,
                  saved := st.saved ++ [existing'] }
  | none =>
      let alert : Alert :=
        { id := "", name := rule.name, expression := rule.expression,
          state := AlertState.pending, value := metric.value,
          activeAt := now, resolvedAt := none }
      if rule.forDur = 0 then
        let alert := { alert with state := AlertState.firing }
        { st with activeAlerts := aupdate alertKey alert st.activeAlerts,
                  saved := st.saved ++ [alert],
                  notifs := st.notifs ++ [alert] }
      else
        { st with activeAlerts := aupdate alertKey alert st.activeAlerts,
                  saved := st.saved ++ [alert] }

/-- Embeds resolveAlert (alert_engine.go lines 232 to 261): if an alert exists
    under the key, mark it resolved with resolvedAt set to now, persist it,
    dispatch a notification for it, and delete it from the active table. -/
def resolveAlert (now : Int) (nodeID ruleName : String) (st : EngineState) : EngineState :=
  let alertKey := alertKeyOf nodeID ruleName
  match alookup alertKey st.activeAlerts with
  | none => st
  | some alert =>
      let alert' := { alert with state := AlertState.resolved, resolvedAt := some now }
      { st with activeAlerts := aremove alertKey st.activeAlerts,
                saved := st.saved ++ [alert'],
                notifs := st.notifs ++ [alert'] }

/-- One rule iteration of the inner loop of CheckMetrics (alert_engine.go lines
    122 to 145): skip disabled rules and name mismatches, otherwise fire or
    resolve according to evaluateRule.  In the source the rules map iteration
    passes the map key as ruleName; the map is keyed by rule.Name. -/
def checkRule (now : Int) (nodeID : String) (metric : EMetric) (st : EngineState)
    (rule : AlertRule) : EngineState :=
  if rule.enabled = false then st
  else if metric.name ≠ rule.metricName then st
  else if evaluateRule rule metric.value then fireAlert now nodeID rule metric st
  else resolveAlert now nodeID rule.name st

/-- Embeds CheckMetrics: for each metric, iterate all rules.  The rules list
    gives the map iteration order of am.rules. -/
def checkMetrics (now : Int) (nodeID : String) (rules : List AlertRule)
    (metrics : List EMetric) (st : EngineState) : EngineState :=
  metrics.foldl (fun st metric => rules.foldl (checkRule now nodeID metric) st) st

/-- The HighCPUUsage default rule of loadDefaultRules (alert_engine.go lines 56
    to 119): threshold 80, operator greater-than, For two minutes. -/
def highCPURule : AlertRule :=
  { name := "HighCPUUsage", expression := "system_cpu_usage > 80",
    forDur := 120 * 1000000000, enabled := true, threshold := 80,
    operator := ">", metricName := "system_cpu_usage" }

/-- Engine state after node n1 sends one system_cpu_usage sample of value 90 at
    time 0 against the HighCPUUsage rule: a pending alert with activeAt 0. -/
def pendingState : EngineState :=
  checkMetrics 0 "n1" [highCPURule] [⟨"system_cpu_usage", 90⟩] emptyEngine

/-! Label handling of the alert creation path of fireAlert, with Go reference
    semantics made explicit.  In Go, the struct literal field Labels takes
    rule.Labels by reference: the created alert and the rule share one map, and
    the two subsequent assignments of the node and metric keys write through
    that shared reference.  We model map references as indices into an explicit
    heap of label maps. -/

/-- A heap of label maps: reference index to map contents, plus the next free
    reference. -/
structure LabelHeap where
  maps : List (Nat × Labels)
  next : Nat
deriving DecidableEq, Repr

/-- Dereference a label map. -/
def heapGet (h : LabelHeap) (r : Nat) : Labels :=
  match h.maps.find? (fun p => p.1 = r) with
  | some p => p.2
  | none => []

/-- Write a label map through a reference. -/
def heapSet (h : LabelHeap) (r : Nat) (m : Labels) : LabelHeap :=
  { h with maps := h.maps.map (fun p => if p.1 = r then (r, m) else p) }

/-- Allocate a fresh label map. -/
def heapAlloc (h : LabelHeap) (m : Labels) : Nat × LabelHeap :=
  (h.next, { maps := h.maps ++ [(h.next, m)], next := h.next + 1 })

/-- Go map assignment on label maps. -/
def labelsSet (l : Labels) (k v : String) : Labels := aupdate k v l

/-- Embeds the label handling of the alert creation path of fireAlert
    (alert_engine.go lines 188 to 211): the alert takes rule.Labels by
    reference; if that reference is nil a fresh empty map is allocated; then
    the node and metric keys are assigned through the (possibly shared)
    reference.  Returns the reference held by the created alert and the
    updated heap. -/
def fireAlertLabels (h : LabelHeap) (ruleLabelsRef : Option Nat)
    (nodeID metricName : String) : Nat × LabelHeap :=
  match ruleLabelsRef with
  | none =>
      let (r, h) := heapAlloc h []
      let h := heapSet h r (labelsSet (labelsSet (heapGet h r) "node" nodeID) "metric" metricName)
      (r, h)
  | some r =>
      let h := heapSet h r (labelsSet (labelsSet (heapGet h r) "node" nodeID) "metric" metricName)
      (r, h)

/-- The label map of the HighCPUUsage default rule. -/
def highCPURuleLabels : Labels := [("severity", "warning"), ("category", "system")]

/-- A heap holding only the HighCPUUsage rule label map, at reference 0. -/
def ruleLabelHeap : LabelHeap := ⟨[(0, highCPURuleLabels)], 1⟩

/-! Storage query path (internal/storage/badger_store.go). -/

/-- A decoded stored sample as seen by the QueryMetrics scan: the metric name
    and timestamp come from the key, the value and labels from the stored
    record. -/
structure StoredMetric where
  name : String
  value : ℚ
  timestampNs : Int
  labels : Labels
deriving DecidableEq, Repr

/-- A point of a returned series (models.Sample: rounded timestamp and value). -/
structure BSample where
  timestampNs : Int
  value : ℚ
deriving DecidableEq, Repr

/-- A returned series (models.TimeSeries). -/
structure BSeries where
  labels : Labels
  samples : List BSample
deriving DecidableEq, Repr

/-- Embeds matchesFilters (badger_store.go lines 243 to 250): every filter
    entry must equal the label value of the sample, a missing label reading as
    the empty string. -/
def matchesFilters (m : StoredMetric) (filters : Labels) : Bool :=
  filters.all (fun kv => decide (labelGet m.labels kv.1 = kv.2))

/-- Insertion of a string into a sorted list, for sort.Strings. -/
def insortStr (s : String) : List String → List String
  | [] => [s]
  | x :: xs => if s ≤ x then s :: x :: xs else x :: insortStr s xs

/-- sort.Strings on a list of keys. -/
def sortStrs (l : List String) : List String := l.foldr insortStr []

/-- Embeds seriesKey (badger_store.go): the canonical label key, built from the
    lexicographically sorted label keys as key, equals sign, value, comma. -/
def seriesKey (labels : Labels) : String :=
  (sortStrs (labels.map Prod.fst)).foldl
    (fun b k => b ++ k ++ "=" ++ labelGet labels k ++ ",") ""

/-- Embeds the bucket computation metric.Timestamp.Truncate(step): round down
    to a multiple of step; a non-positive step leaves the timestamp unchanged. -/
def bucketOf (t step : Int) : Int :=
  if step ≤ 0 then t else t - Int.emod t step

/-- Embeds the aggregation loop over series.Samples in QueryMetrics
    (badger_store.go lines 110 to 131): find the sample with the rounded
    timestamp and replace its value by the average of the stored value and the
    incoming one; append a new sample when no bucket matches. -/
def addSampleToBuckets (t : Int) (v : ℚ) : List BSample → List BSample
  | [] => [⟨t, v⟩]
  | s :: ss =>
      if s.timestampNs = t then ⟨s.timestampNs, (s.value + v) / 2⟩ :: ss
      else s :: addSampleToBuckets t v ss

/-- One iteration of the QueryMetrics scan loop (badger_store.go lines 78 to
    131) on a decoded item: the name test models the key prefix restriction of
    the iterator; then the time range filter (strictly before start or strictly
    after end skips), the label filters, and the grouping by seriesKey with
    bucket aggregation.  The accumulator is the seriesMap in insertion order. -/
def scanStep (metricName : String) (filters : Labels) (startNs endNs step : Int)
    (acc : List (String × BSeries)) (m : StoredMetric) : List (String × BSeries) :=
  if m.name ≠ metricName then acc
  else if m.timestampNs < startNs ∨ endNs < m.timestampNs then acc
  else if ¬ matchesFilters m filters then acc
  else
    let sk := seriesKey m.labels
    let rounded := bucketOf m.timestampNs step
    match alookup sk acc with
    | none => acc ++ [(sk, ⟨m.labels, [⟨rounded, m.value⟩]⟩)]
    | some ser => aupdate sk ⟨ser.labels, addSampleToBuckets rounded m.value ser.samples⟩ acc

/-- Embeds QueryMetrics of BadgerStore: scan the stored samples in key order,
    build the series map, return its values.  The returned list order models
    one possible Go map iteration order (insertion order). -/
def queryMetricsScan (metricName : String) (filters : Labels) (startNs endNs step : Int)
    (stored : List StoredMetric) : List BSeries :=
  (stored.foldl (scanStep metricName filters startNs endNs step) []).map Prod.snd

/-- The arithmetic mean of a list of rationals. -/
def listMean (l : List ℚ) : ℚ := l.sum / l.length

/-- The pairwise averaging step used by the QueryMetrics bucket aggregation. -/
def pairAvg (acc v : ℚ) : ℚ := (acc + v) / 2

/-! Query string construction and parsing (internal/storage/tsdb.go lines 110
    to 128 and parseSimpleQuery in badger_store.go).  The string functions are
    modelled on character lists with structural recursion. -/

/-- Split a character list on every occurrence of a separator character
    (strings.Split with a one character separator). -/
def splitOnChar (c : Char) : List Char → List (List Char)
  | [] => [[]]
  | x :: xs =>
      if x = c then [] :: splitOnChar c xs
      else
        match splitOnChar c xs with
        | [] => [[x]]
        | y :: ys => (x :: y) :: ys

/-- Rejoin character lists with a separator character. -/
def joinWithChar (c : Char) : List (List Char) → List Char
  | [] => []
  | [x] => x
  | x :: xs => x ++ c :: joinWithChar c xs

/-- strings.SplitN with limit 2 on a one character separator. -/
def splitN2Char (c : Char) (s : List Char) : List (List Char) :=
  match splitOnChar c s with
  | [] => [s]
  | [x] => [x]
  | x :: rest => [x, joinWithChar c rest]

/-- Whitespace characters trimmed by strings.TrimSpace on ASCII input. -/
def isSpaceChar (c : Char) : Bool :=
  decide (c = ' ' ∨ c = '\t' ∨ c = '\n' ∨ c = '\r')

/-- Trim characters satisfying a predicate from both ends (strings.Trim and
    strings.TrimSpace). -/
def trimChars (p : Char → Bool) (s : List Char) : List Char :=
  ((s.dropWhile p).reverse.dropWhile p).reverse

/-- strings.TrimSuffix for a one character suffix. -/
def trimSuffixChar (c : Char) (s : List Char) : List Char :=
  match s.reverse with
  | [] => s
  | x :: xs => if x = c then xs.reverse else s

/-- Embeds parseSimpleQuery (badger_store.go): split the query on the opening
    brace, trim the metric name, drop a trailing closing brace, split the
    filters on commas, and for each non-empty pair split on the equals sign and
    trim double quotes around the value. -/
def parseSimpleQuery (query : String) : String × Labels :=
  let parts := splitN2Char '\x7b' query.toList
  let metricName := String.mk (trimChars isSpaceChar (parts.headD []))
  let filters : Labels :=
    if parts.length > 1 then
      let filterStr := trimSuffixChar '\x7d' (parts.getD 1 [])
      let pairs := splitOnChar ',' filterStr
      pairs.foldl (fun fs pair =>
        let pair := trimChars isSpaceChar pair
        if pair = [] then fs
        else
          let kv := splitN2Char '=' pair
          if kv.length = 2 then
            aupdate (String.mk (trimChars isSpaceChar (kv.headD [])))
              (String.mk (trimChars (fun c => decide (c = '"'))
                (trimChars isSpaceChar (kv.getD 1 []))))
              fs
          else fs) []
    else []
  (metricName, filters)

/-- A query as passed to TimeSeriesDB.QueryMetrics (models.Query): the label
    list order stands for one possible Go map iteration order of query.Labels. -/
structure MQuery where
  metricName : String
  labels : Labels
  startNs : Int
  endNs : Int
  step : Int
deriving DecidableEq, Repr

/-- Embeds TimeSeriesDB.QueryMetrics (tsdb.go lines 110 to 128): build the
    query string from the metric name and, when labels are present, ONLY the
    first element of labelPairs, then parse it and run the store scan.  This
    mirrors the source, which formats labelPairs but interpolates only
    labelPairs[0]. -/
def tsdbQueryMetrics (q : MQuery) (stored : List StoredMetric) : List BSeries :=
  let queryStr :=
    if q.labels.length > 0 then
      let labelPairs := q.labels.map (fun kv => kv.1 ++ "=\"" ++ kv.2 ++ "\"")
      q.metricName ++ "\x7b" ++ labelPairs.headD "" ++ "\x7d"
    else q.metricName
  let parsed := parseSimpleQuery queryStr
  queryMetricsScan parsed.1 parsed.2 q.startNs q.endNs q.step stored

/-! Sample key encoding (badger_store.go lines 148 to 160). -/

/-- Byte values of a string (all strings involved are ASCII). -/
def strBytes (s : String) : List Nat := s.toList.map Char.toNat

/-- Decimal digit count, computed with structural fuel recursion; the fuel
    argument is always at least the argument. -/
def numDigitsAux : Nat → Nat → Nat
  | 0, _ => 1
  | fuel + 1, n => if n < 10 then 1 else numDigitsAux fuel (n / 10) + 1

/-- Number of digits of the decimal representation of n. -/
def numDigits (n : Nat) : Nat := numDigitsAux n n

/-- The ASCII digit bytes of n written with exactly len digits, most
    significant first. -/
def padDigits : Nat → Nat → List Nat
  | _, 0 => []
  | n, len + 1 => (48 + n / 10 ^ len) :: padDigits (n % 10 ^ len) len

/-- ASCII bytes of the usual decimal representation of n, as produced by the
    percent-d verb of fmt.Sprintf for non-negative values: numDigits n digits
    with no padding. -/
def decRepr (n : Nat) : List Nat := padDigits n (numDigits n)

/-- Embeds encodeMetricKey (badger_store.go lines 148 to 160) for non-negative
    timestamps: the bytes of metric, colon, name, colon, the unpadded decimal
    timestamp, colon, labels hash. -/
def encodeMetricKey (name : String) (timestampNs : Nat) (labelsHash : String) : List Nat :=
  strBytes "metric:" ++ strBytes name ++ [58] ++ decRepr timestampNs ++ [58] ++ strBytes labelsHash

/-- Lexicographic strict comparison of byte strings, as used by the ordered
    key-value store to order keys. -/
def bytesLt : List Nat → List Nat → Bool
  | [], [] => false
  | [], _ :: _ => true
  | _ :: _, [] => false
  | a :: as, b :: bs => if a < b then true else if b < a then false else bytesLt as bs

/-! Agent network collector rate computation (collectNetworkMetrics in the
    system collector, src/unnamed/part_002 lines 521 to 646). -/

/-- The gopsutil interface counters read by collectNetworkMetrics (uint64). -/
structure NetCounters where
  bytesRecv : Nat
  bytesSent : Nat
  packetsRecv : Nat
  packetsSent : Nat
  errin : Nat
  errout : Nat
  dropin : Nat
  dropout : Nat
deriving DecidableEq, Repr

/-- uint64 subtraction with wrap-around, as computed by Go before the float64
    conversion. -/
def u64sub (a b : Nat) : Nat := (a % 2 ^ 64 + 2 ^ 64 - b % 2 ^ 64) % 2 ^ 64

/-- The divisor used for every network rate: float64(time.Second).  time.Second
    is the Duration constant 1e9 nanoseconds, so the conversion yields exactly
    1e9; the elapsed wall time between the two observations is never read. -/
def networkTimeDelta : ℚ := 1000000000

/-- A metric emitted by the collector: name, value and kind. -/
structure CMetric where
  name : String
  value : ℚ
  kind : String
deriving DecidableEq, Repr

/-- One network rate value: the counter delta divided by networkTimeDelta. -/
def netRate (curr prev : Nat) : ℚ := (u64sub curr prev : ℚ) / networkTimeDelta

/-- Embeds the per-interface body of collectNetworkMetrics for an interface
    that passed the loopback and include filters: when a previous observation
    exists in the lastNet cache, emit the eight per-second rate gauges, each
    computed as the counter delta divided by networkTimeDelta; then emit the
    absolute counters; the caller stores io back into the cache. -/
def collectNetworkInterface (lastNet : Option NetCounters) (io : NetCounters) : List CMetric :=
  let rates : List CMetric :=
    match lastNet with
    | none => []
    | some last =>
        [ ⟨"system_network_receive_bytes_per_second", netRate io.bytesRecv last.bytesRecv, "gauge"⟩,
          ⟨"system_network_transmit_bytes_per_second", netRate io.bytesSent last.bytesSent, "gauge"⟩,
          ⟨"system_network_receive_packets_per_second", netRate io.packetsRecv last.packetsRecv, "gauge"⟩,
          ⟨"system_network_transmit_packets_per_second", netRate io.packetsSent last.packetsSent, "gauge"⟩,
          ⟨"system_network_receive_errors_per_second", netRate io.errin last.errin, "gauge"⟩,
          ⟨"system_network_transmit_errors_per_second", netRate io.errout last.errout, "gauge"⟩,
          ⟨"system_network_receive_drops_per_second", netRate io.dropin last.dropin, "gauge"⟩,
          ⟨"system_network_transmit_drops_per_second", netRate io.dropout last.dropout, "gauge"⟩ ]
  rates ++
    [ ⟨"system_network_receive_bytes_total", (io.bytesRecv : ℚ), "counter"⟩,
      ⟨"system_network_transmit_bytes_total", (io.bytesSent : ℚ), "counter"⟩,
      ⟨"system_network_receive_errors_total", (io.errin : ℚ), "counter"⟩,
      ⟨"system_network_transmit_errors_total", (io.errout : ℚ), "counter"⟩ ]

/-- Modelled from the spec: the per-second counter rate over the actually
    elapsed wall time, (c2 - c1) / (t2 - t1), timestamps in nanoseconds. -/
def specCounterRate (c1 c2 : Nat) (t1ns t2ns : Int) : ℚ :=
  ((c2 : ℚ) - (c1 : ℚ)) / (((t2ns : ℚ) - (t1ns : ℚ)) / 1000000000)

/-! Ingest path (src/unnamed/part_009: Register, StreamMetrics,
    processMetrics). -/

/-- A metric inside a protobuf MetricBatch frame. -/
structure PbMetric where
  name : String
  value : ℚ
  timestampNs : Int
  labels : Labels
  typ : Nat
  help : String
  unit : String
deriving DecidableEq, Repr

/-- A MetricBatch frame: the session id and the samples. -/
structure MetricBatch where
  sessionId : String
  metrics : List PbMetric
deriving DecidableEq, Repr

/-- The session fields read by the ingest path. -/
structure Session where
  nodeID : String
  sessionID : String
deriving DecidableEq, Repr

/-- A models.Metric as constructed by processMetrics; timestampNs records
    time.Unix(0, pb.Timestamp), whose UnixNano is pb.Timestamp itself. -/
structure MMetric where
  nodeID : String
  name : String
  value : ℚ
  timestampNs : Int
  labels : Labels
  typ : Nat
  help : String
  unit : String
deriving DecidableEq, Repr

/-- The per-sample conversion inside processMetrics (part_009 lines 278 to
    309): node id taken from the session, every other field copied from the
    frame; the timestamp is passed through unchanged. -/
def convertMetric (sess : Session) (pb : PbMetric) : MMetric :=
  { nodeID := sess.nodeID, name := pb.name, value := pb.value,
    timestampNs := pb.timestampNs, labels := pb.labels,
    typ := pb.typ, help := pb.help, unit := pb.unit }

/-- The storage, alert engine and node manager calls made by the ingest path. -/
inductive ServerEffect
  | writeMetrics (ms : List MMetric)
  | checkAlerts (nodeID : String) (ms : List MMetric)
  | updateNodeStatusHealthy (nodeID : String)
deriving DecidableEq, Repr

/-- Embeds processMetrics (part_009 lines 278 to 309): convert the batch, write
    it to storage, hand it to the alert engine, mark the node healthy. -/
def processMetrics (sess : Session) (batch : MetricBatch) : List ServerEffect :=
  let metrics := batch.metrics.map (convertMetric sess)
  [ServerEffect.writeMetrics metrics,
   ServerEffect.checkAlerts sess.nodeID metrics,
   ServerEffect.updateNodeStatusHealthy sess.nodeID]

/-- gRPC status codes returned by the ingest handlers. -/
inductive GrpcOutcome
  | errInvalidArgument
  | errUnauthenticated
  | closed
deriving DecidableEq, Repr

/-- Embeds the validation and session creation of Register (part_009 lines 121
    to 150): an empty node id is rejected with InvalidArgument; otherwise a
    session is recorded with the node id of the request and the freshly minted
    session id (the mint is passed as a parameter). -/
def register (req : String) (newSessionID : String) : Except GrpcOutcome Session :=
  if req = "" then Except.error GrpcOutcome.errInvalidArgument
  else Except.ok ⟨req, newSessionID⟩

/-- Embeds StreamMetrics (part_009 lines 180 to 238): the first frame must
    carry a session id; an empty one closes the stream with InvalidArgument and
    an unknown one with Unauthenticated, in both cases before any batch is
    processed.  With a known session every subsequent frame is handed to
    processMetrics; the samples of the first frame itself are not processed.
    Returns the stream outcome and the accumulated effects. -/
def streamMetrics (sessions : List (String × Session)) (firstMsg : MetricBatch)
    (frames : List MetricBatch) : GrpcOutcome × List ServerEffect :=
  if firstMsg.sessionId = "" then (GrpcOutcome.errInvalidArgument, [])
  else
    match alookup firstMsg.sessionId sessions with
    | none => (GrpcOutcome.errUnauthenticated, [])
    | some sess => (GrpcOutcome.closed, (frames.map (processMetrics sess)).flatten)

/-! Spec-level predicates and concrete instances used by the theorems below. -/

/-- No entry of the active table holds an alert bearing the given rule name. -/
abbrev NoAlertNamed (st : EngineState) (rn : String) : Prop :=
  ∀ p ∈ st.activeAlerts, (Prod.snd p).name ≠ rn

/-- Every notification of the second state was already present in the first or
    concerns an alert not bearing the given rule name. -/
abbrev NotifsFrom (st st' : EngineState) (rn : String) : Prop :=
  ∀ a ∈ st'.notifs, a ∈ st.notifs ∨ a.name ≠ rn

/-- A rule whose operator string is not one of the six comparisons. -/
def badOpRule : AlertRule :=
  { name := "BadOp", expression := "", forDur := 0, enabled := true,
    threshold := 1, operator := "=>", metricName := "system_cpu_usage" }

/-- First alert creation from the HighCPUUsage rule labels, for node n1. -/
def aliasCreate1 : Nat × LabelHeap :=
  fireAlertLabels ruleLabelHeap (some 0) "n1" "system_cpu_usage"

/-- Second alert creation from the same rule labels, for node n2. -/
def aliasCreate2 : Nat × LabelHeap :=
  fireAlertLabels aliasCreate1.2 (some 0) "n2" "system_cpu_usage"

/-- Three stored samples of one series falling into one bucket: values 0, 0, 3
    at timestamps 0, 1, 2 nanoseconds. -/
def meanStored : List StoredMetric :=
  [⟨"cpu", 0, 0, [("a", "1")]⟩, ⟨"cpu", 0, 1, [("a", "1")]⟩, ⟨"cpu", 3, 2, [("a", "1")]⟩]

/-- A query carrying two label equality filters. -/
def twoFilterQuery : MQuery := ⟨"cpu", [("a", "1"), ("b", "2")], 0, 10, 10⟩

/-- A stored sample satisfying the first filter of twoFilterQuery but failing
    the second. -/
def mismatchedSample : StoredMetric := ⟨"cpu", 5, 1, [("a", "1"), ("b", "3")]⟩

/-- Network counters at the first observation. -/
def netPrev : NetCounters := ⟨0, 0, 0, 0, 0, 0, 0, 0⟩

/-- Network counters at the second observation: 2000 bytes received since. -/
def netCurr : NetCounters := ⟨2000, 0, 0, 0, 0, 0, 0, 0⟩

/-- A frame metric submitted with a zero timestamp. -/
def zeroTsPb : PbMetric := ⟨"cpu", 1, 0, [], 0, "", ""⟩

/-! Association list lemmas. -/

theorem alookup_aremove_self {β : Type} (k : String) (l : List (String × β)) :
    alookup k (aremove k l) = none := by
  induction l with
  | nil => rfl
  | cons p rest ih =>
    obtain ⟨k', v⟩ := p
    by_cases h : k' = k
    · simpa [aremove, h] using ih
    · simpa [aremove, alookup, h] using ih

theorem alookup_mem {β : Type} (k : String) (l : List (String × β)) (v : β)
    (h : alookup k l = some v) : (k, v) ∈ l := by
  induction l with
  | nil => simp [alookup] at h
  | cons p rest ih =>
    obtain ⟨k', v'⟩ := p
    by_cases hk : k' = k
    · subst hk
      simp [alookup] at h
      subst h
      exact List.mem_cons_self _ _
    · simp [alookup, hk] at h
      exact List.mem_cons_of_mem _ (ih h)

theorem mem_aupdate {β : Type} {k : String} {v : β} {l : List (String × β)}
    {p : String × β} (hp : p ∈ aupdate k v l) : p ∈ l ∨ p = (k, v) := by
  induction l with
  | nil =>
    simp [aupdate] at hp
    exact Or.inr hp
  | cons q rest ih =>
    obtain ⟨k', v'⟩ := q
    by_cases h : k' = k
    · simp [aupdate, h] at hp
      rcases hp with h1 | h1
      · exact Or.inr (by simp [h1])
      · exact Or.inl (List.mem_cons_of_mem _ h1)
    · simp [aupdate, h] at hp
      rcases hp with h1 | h1
      · exact Or.inl (by simp [h1])
      · rcases ih h1 with h2 | h2
        · exact Or.inl (List.mem_cons_of_mem _ h2)
        · exact Or.inr h2

theorem mem_aremove {β : Type} {k : String} {l : List (String × β)}
    {p : String × β} (hp : p ∈ aremove k l) : p ∈ l := by
  induction l with
  | nil => simp [aremove] at hp
  | cons q rest ih =>
    obtain ⟨k', v'⟩ := q
    by_cases h : k' = k
    · simp [aremove, h] at hp
      exact List.mem_cons_of_mem _ (ih hp)
    · simp [aremove, h] at hp
      rcases hp with h1 | h1
      · exact by simp [h1]
      · exact List.mem_cons_of_mem _ (ih h1)

/-! Alert engine lemmas. -/

theorem evaluateRule_false_of_invalid (rule : AlertRule) (v : ℚ)
    (hop : validOperator rule.operator = false) : evaluateRule rule v = false := by
  unfold validOperator at hop
  simp only [decide_eq_false_iff_not] at hop
  push_neg at hop
  obtain ⟨n1, n2, n3, n4, n5, n6⟩ := hop
  simp [evaluateRule, n1, n2, n3, n4, n5, n6]

/-! Branch equations for fireAlert, resolveAlert and checkRule. -/

theorem fireAlert_existing_wait (now : Int) (nodeID : String) (rule : AlertRule)
    (metric : EMetric) (st : EngineState) (existing : Alert)
    (hl : alookup (alertKeyOf nodeID rule.name) st.activeAlerts = some existing)
    (ht : now - existing.activeAt < rule.forDur) :
    fireAlert now nodeID rule metric st = st := by
  simp [fireAlert, hl, ht]

theorem fireAlert_existing_elapsed (now : Int) (nodeID : String) (rule : AlertRule)
    (metric : EMetric) (st : EngineState) (existing : Alert)
    (hl : alookup (alertKeyOf nodeID rule.name) st.activeAlerts = some existing)
    (ht : ¬ now - existing.activeAt < rule.forDur) :
    fireAlert now nodeID rule metric st =
      { st with
          activeAlerts := aupdate (alertKeyOf nodeID rule.name)
            { existing with value := metric.value } st.activeAlerts,
          saved := st.saved ++ [{ existing with value := metric.value }] } := by
  simp [fireAlert, hl, ht]

theorem fireAlert_create_firing (now : Int) (nodeID : String) (rule : AlertRule)
    (metric : EMetric) (st : EngineState)
    (hl : alookup (alertKeyOf nodeID rule.name) st.activeAlerts = none)
    (hf : rule.forDur = 0) :
    fireAlert now nodeID rule metric st =
      { st with
          activeAlerts := aupdate (alertKeyOf nodeID rule.name)
            ⟨"", rule.name, rule.expression, AlertState.firing, metric.value, now, none⟩
            st.activeAlerts,
          saved := st.saved ++
            [⟨"", rule.name, rule.expression, AlertState.firing, metric.value, now, none⟩],
          notifs := st.notifs ++
            [⟨"", rule.name, rule.expression, AlertState.firing, metric.value, now, none⟩] } := by
  simp [fireAlert, hl, hf]

theorem fireAlert_create_pending (now : Int) (nodeID : String) (rule : AlertRule)
    (metric : EMetric) (st : EngineState)
    (hl : alookup (alertKeyOf nodeID rule.name) st.activeAlerts = none)
    (hf : rule.forDur ≠ 0) :
    fireAlert now nodeID rule metric st =
      { st with
          activeAlerts := aupdate (alertKeyOf nodeID rule.name)
            ⟨"", rule.name, rule.expression, AlertState.pending, metric.value, now, none⟩
            st.activeAlerts,
          saved := st.saved ++
            [⟨"", rule.name, rule.expression, AlertState.pending, metric.value, now, none⟩] } := by
  simp [fireAlert, hl, hf]

theorem resolveAlert_none (now : Int) (nodeID ruleName : String) (st : EngineState)
    (hl : alookup (alertKeyOf nodeID ruleName) st.activeAlerts = none) :
    resolveAlert now nodeID ruleName st = st := by
  simp [resolveAlert, hl]

theorem resolveAlert_some (now : Int) (nodeID ruleName : String) (st : EngineState)
    (alert : Alert)
    (hl : alookup (alertKeyOf nodeID ruleName) st.activeAlerts = some alert) :
    resolveAlert now nodeID ruleName st =
      { st with
          activeAlerts := aremove (alertKeyOf nodeID ruleName) st.activeAlerts,
          saved := st.saved ++ [{ alert with state := AlertState.resolved, resolvedAt := some now }],
          notifs := st.notifs ++ [{ alert with state := AlertState.resolved, resolvedAt := some now }] } := by
  simp [resolveAlert, hl]

theorem checkRule_disabled (now : Int) (nodeID : String) (metric : EMetric)
    (st : EngineState) (rule : AlertRule) (h : rule.enabled = false) :
    checkRule now nodeID metric st rule = st := by
  simp [checkRule, h]

theorem checkRule_name_mismatch (now : Int) (nodeID : String) (metric : EMetric)
    (st : EngineState) (rule : AlertRule) (h : metric.name ≠ rule.metricName) :
    checkRule now nodeID metric st rule = st := by
  simp [checkRule, h]

theorem checkRule_fire (now : Int) (nodeID : String) (metric : EMetric)
    (st : EngineState) (rule : AlertRule) (h1 : rule.enabled = true)
    (h2 : metric.name = rule.metricName) (h3 : evaluateRule rule metric.value = true) :
    checkRule now nodeID metric st rule = fireAlert now nodeID rule metric st := by
  simp [checkRule, h1, h2, h3]

theorem checkRule_resolve (now : Int) (nodeID : String) (metric : EMetric)
    (st : EngineState) (rule : AlertRule) (h1 : rule.enabled = true)
    (h2 : metric.name = rule.metricName) (h3 : evaluateRule rule metric.value = false) :
    checkRule now nodeID metric st rule = resolveAlert now nodeID rule.name st := by
  simp [checkRule, h1, h2, h3]

theorem fireAlert_inert (rule : AlertRule) (now : Int) (nodeID : String)
    (metric : EMetric) (st : EngineState) (rn : String)
    (hinv : NoAlertNamed st rn) (hname : rule.name ≠ rn) :
    NoAlertNamed (fireAlert now nodeID rule metric st) rn ∧
    NotifsFrom st (fireAlert now nodeID rule metric st) rn := by
  cases hl : alookup (alertKeyOf nodeID rule.name) st.activeAlerts with
  | some existing =>
    have hex : existing.name ≠ rn :=
      hinv _ (alookup_mem _ _ _ hl)
    by_cases ht : now - existing.activeAt < rule.forDur
    · rw [fireAlert_existing_wait now nodeID rule metric st existing hl ht]
      exact ⟨hinv, fun a ha => Or.inl ha⟩
    · rw [fireAlert_existing_elapsed now nodeID rule metric st existing hl ht]
      refine ⟨?_, fun a ha => Or.inl ha⟩
      intro p hp
      rcases mem_aupdate hp with h | h
      · exact hinv p h
      · subst h; simpa using hex
  | none =>
    by_cases hf : rule.forDur = 0
    · rw [fireAlert_create_firing now nodeID rule metric st hl hf]
      refine ⟨?_, ?_⟩
      · intro p hp
        rcases mem_aupdate hp with h | h
        · exact hinv p h
        · subst h; simpa using hname
      · intro a ha
        simp only [List.mem_append, List.mem_singleton] at ha
        rcases ha with h | h
        · exact Or.inl h
        · subst h; exact Or.inr (by simpa using hname)
    · rw [fireAlert_create_pending now nodeID rule metric st hl hf]
      refine ⟨?_, fun a ha => Or.inl ha⟩
      intro p hp
      rcases mem_aupdate hp with h | h
      · exact hinv p h
      · subst h; simpa using hname

theorem resolveAlert_inert (now : Int) (nodeID ruleName : String) (st : EngineState)
    (rn : String) (hinv : NoAlertNamed st rn) :
    NoAlertNamed (resolveAlert now nodeID ruleName st) rn ∧
    NotifsFrom st (resolveAlert now nodeID ruleName st) rn := by
  cases hl : alookup (alertKeyOf nodeID ruleName) st.activeAlerts with
  | none =>
    rw [resolveAlert_none now nodeID ruleName st hl]
    exact ⟨hinv, fun a ha => Or.inl ha⟩
  | some alert =>
    have hex : alert.name ≠ rn := hinv _ (alookup_mem _ _ _ hl)
    rw [resolveAlert_some now nodeID ruleName st alert hl]
    refine ⟨?_, ?_⟩
    · intro p hp
      exact hinv p (mem_aremove hp)
    · intro a ha
      simp only [List.mem_append, List.mem_singleton] at ha
      rcases ha with h | h
      · exact Or.inl h
      · subst h; exact Or.inr (by simpa using hex)

theorem checkRule_inert (badRule r' : AlertRule) (now : Int) (nodeID : String)
    (metric : EMetric) (st : EngineState)
    (hop : validOperator badRule.operator = false)
    (hr' : r'.name = badRule.name → r' = badRule)
    (hinv : NoAlertNamed st badRule.name) :
    NoAlertNamed (checkRule now nodeID metric st r') badRule.name ∧
    NotifsFrom st (checkRule now nodeID metric st r') badRule.name := by
  by_cases h1 : r'.enabled = false
  · rw [checkRule_disabled now nodeID metric st r' h1]
    exact ⟨hinv, fun a ha => Or.inl ha⟩
  · have h1' : r'.enabled = true := by
      cases he : r'.enabled
      · exact absurd he h1
      · rfl
    by_cases h2 : metric.name = r'.metricName
    · cases h3 : evaluateRule r' metric.value with
      | false =>
        rw [checkRule_resolve now nodeID metric st r' h1' h2 h3]
        exact resolveAlert_inert now nodeID r'.name st badRule.name hinv
      | true =>
        rw [checkRule_fire now nodeID metric st r' h1' h2 h3]
        have hname : r'.name ≠ badRule.name := by
          intro heq
          have hb := hr' heq
          subst hb
          rw [evaluateRule_false_of_invalid r' metric.value hop] at h3
          exact Bool.false_ne_true h3
        exact fireAlert_inert r' now nodeID metric st badRule.name hinv hname
    · rw [checkRule_name_mismatch now nodeID metric st r' h2]
      exact ⟨hinv, fun a ha => Or.inl ha⟩

theorem checkRules_inert (badRule : AlertRule) (rules : List AlertRule) (now : Int)
    (nodeID : String) (metric : EMetric) (st : EngineState)
    (hop : validOperator badRule.operator = false)
    (huniq : ∀ r' ∈ rules, r'.name = badRule.name → r' = badRule)
    (hinv : NoAlertNamed st badRule.name) :
    NoAlertNamed (rules.foldl (checkRule now nodeID metric) st) badRule.name ∧
    NotifsFrom st (rules.foldl (checkRule now nodeID metric) st) badRule.name := by
  induction rules generalizing st with
  | nil => exact ⟨hinv, fun a ha => Or.inl ha⟩
  | cons r rs ih =>
    simp only [List.foldl_cons]
    obtain ⟨i1, i2⟩ :=
      checkRule_inert badRule r now nodeID metric st hop (huniq r (by simp)) hinv
    obtain ⟨j1, j2⟩ := ih _ (fun r' hr => huniq r' (by simp [hr])) i1
    refine ⟨j1, fun a ha => ?_⟩
    rcases j2 a ha with h | h
    · exact i2 a h
    · exact Or.inr h

/-- C10: an alert rule whose operator string is not one of the six comparison
    operators evaluates to false on every sample value, and therefore never
    creates an alert under its name and never causes a notification for an
    alert bearing its name, whatever samples arrive.  The huniq hypothesis
    reflects that the rules map is keyed by rule name, so no other rule shares
    the name of the bad rule. -/
theorem invalid_operator_rule_inert (badRule : AlertRule) (rules : List AlertRule)
    (now : Int) (nodeID : String) (metrics : List EMetric) (st : EngineState)
    (hop : validOperator badRule.operator = false)
    (huniq : ∀ r' ∈ rules, r'.name = badRule.name → r' = badRule)
    (hinv : NoAlertNamed st badRule.name) :
    (∀ v : ℚ, evaluateRule badRule v = false) ∧
    NoAlertNamed (checkMetrics now nodeID rules metrics st) badRule.name ∧
    NotifsFrom st (checkMetrics now nodeID rules metrics st) badRule.name := by
  refine ⟨fun v => evaluateRule_false_of_invalid badRule v hop, ?_⟩
  unfold checkMetrics
  induction metrics generalizing st with
  | nil => exact ⟨hinv, fun a ha => Or.inl ha⟩
  | cons metric ms ih =>
    simp only [List.foldl_cons]
    obtain ⟨i1, i2⟩ :=
      checkRules_inert badRule rules now nodeID metric st hop huniq hinv
    obtain ⟨j1, j2⟩ := ih _ i1
    refine ⟨j1, fun a ha => ?_⟩
    rcases j2 a ha with h | h
    · exact i2 a h
    · exact Or.inr h

/-- C10 witness: the BadOp rule, alongside the HighCPUUsage default rule, is
    inert on a concrete sample. -/
theorem invalid_operator_rule_inert_witness :
    validOperator badOpRule.operator = false ∧
    (∀ v : ℚ, evaluateRule badOpRule v = false) ∧
    NoAlertNamed (checkMetrics 0 "n1" [badOpRule, highCPURule]
      [⟨"system_cpu_usage", 95⟩] emptyEngine) badOpRule.name ∧
    NotifsFrom emptyEngine (checkMetrics 0 "n1" [badOpRule, highCPURule]
      [⟨"system_cpu_usage", 95⟩] emptyEngine) badOpRule.name := by
  refine ⟨by decide, ?_⟩
  exact invalid_operator_rule_inert badOpRule [badOpRule, highCPURule] 0 "n1"
    [⟨"system_cpu_usage", 95⟩] emptyEngine (by decide) (by decide) (by decide)

/-- C1: the claim asserts that a pending alert turns firing with exactly one
    notification once a satisfying sample arrives with now minus activeAt at
    least the For duration.  The code does not do this: with the HighCPUUsage
    rule (For equal to two minutes), a pending alert raised at time 0 receives
    a satisfying sample at 180 seconds, the elapsed time exceeds For, yet the
    alert stays pending and no notification is dispatched; fireAlert merely
    updates the value and persists. -/
theorem pending_alert_never_fires_after_for_duration :
    evaluateRule highCPURule 90 = true ∧
    (180 * 1000000000 : Int) - 0 ≥ highCPURule.forDur ∧
    (alookup (alertKeyOf "n1" "HighCPUUsage")
      (checkMetrics (180 * 1000000000) "n1" [highCPURule]
        [⟨"system_cpu_usage", 90⟩] pendingState).activeAlerts).map Alert.state
      = some AlertState.pending ∧
    (checkMetrics (180 * 1000000000) "n1" [highCPURule]
      [⟨"system_cpu_usage", 90⟩] pendingState).notifs = [] := by
  decide

/-- C8 counterexample: the claim asserts that when the comparison breaks while
    an alert is pending and before For has elapsed, the entry is deleted and no
    notification of any kind is dispatched.  On the concrete run below the
    entry is deleted, but a notification IS dispatched (resolveAlert always
    notifies), refuting the claim as stated. -/
theorem pending_break_notification_counterexample :
    alookup (alertKeyOf "n1" "HighCPUUsage")
      (checkMetrics (60 * 1000000000) "n1" [highCPURule]
        [⟨"system_cpu_usage", 50⟩] pendingState).activeAlerts = none ∧
    (checkMetrics (60 * 1000000000) "n1" [highCPURule]
      [⟨"system_cpu_usage", 50⟩] pendingState).notifs ≠ [] := by
  decide

/-- C8 amended: when the comparison breaks on a matching sample while the alert
    keyed (nodeID, rule name) is pending and before For has elapsed, the entry
    is deleted from the active table, and exactly one resolution notification
    is dispatched for it (state resolved, resolvedAt set to now). -/
theorem pending_break_resolves_and_notifies (rule : AlertRule) (now : Int)
    (nodeID : String) (metric : EMetric) (st : EngineState) (a : Alert)
    (hen : rule.enabled = true) (hm : metric.name = rule.metricName)
    (hev : evaluateRule rule metric.value = false)
    (ha : alookup (alertKeyOf nodeID rule.name) st.activeAlerts = some a)
    (hpend : a.state = AlertState.pending)
    (hbefore : now - a.activeAt < rule.forDur) :
    alookup (alertKeyOf nodeID rule.name)
      (checkMetrics now nodeID [rule] [metric] st).activeAlerts = none ∧
    (checkMetrics now nodeID [rule] [metric] st).notifs
      = st.notifs ++ [{ a with state := AlertState.resolved, resolvedAt := some now }] := by
  have hstep : checkMetrics now nodeID [rule] [metric] st
      = resolveAlert now nodeID rule.name st := by
    simp only [checkMetrics, List.foldl_cons, List.foldl_nil]
    exact checkRule_resolve now nodeID metric st rule hen hm hev
  rw [hstep, resolveAlert_some now nodeID rule.name st a ha]
  exact ⟨alookup_aremove_self _ _, rfl⟩

/-- C8 witness: the amended statement at the concrete pending state. -/
theorem pending_break_resolves_and_notifies_witness :
    alookup (alertKeyOf "n1" "HighCPUUsage")
      (checkMetrics (60 * 1000000000) "n1" [highCPURule]
        [⟨"system_cpu_usage", 50⟩] pendingState).activeAlerts = none ∧
    (checkMetrics (60 * 1000000000) "n1" [highCPURule]
      [⟨"system_cpu_usage", 50⟩] pendingState).notifs
      = pendingState.notifs ++
        [⟨"", "HighCPUUsage", "system_cpu_usage > 80", AlertState.resolved, 90, 0,
          some (60 * 1000000000)⟩] :=
  pending_break_resolves_and_notifies highCPURule (60 * 1000000000) "n1"
    ⟨"system_cpu_usage", 50⟩ pendingState
    ⟨"", "HighCPUUsage", "system_cpu_usage > 80", AlertState.pending, 90, 0, none⟩
    (by decide) (by decide) (by decide) (by decide) (by decide) (by decide)

/-- C9: the claim asserts that creating an alert leaves the rule label set
    unchanged and that two alerts created from the same rule for different
    nodes each retain their own node label.  The code assigns rule.Labels to
    the alert by reference and then writes the node and metric keys through
    that shared map.  Concretely: after creating an alert for node n1 from the
    HighCPUUsage rule labels, the rule label map is no longer its original
    value; after a second creation for node n2, both alerts alias the same map
    (both hold reference 0) and the node label read through the first alert
    reference is n2. -/
theorem fire_alert_mutates_rule_labels :
    aliasCreate1.1 = 0 ∧
    aliasCreate2.1 = 0 ∧
    heapGet aliasCreate1.2 0 ≠ highCPURuleLabels ∧
    labelGet (heapGet aliasCreate1.2 0) "node" = "n1" ∧
    labelGet (heapGet aliasCreate2.2 aliasCreate1.1) "node" = "n2" ∧
    labelGet (heapGet aliasCreate2.2 0) "severity" = "warning" := by
  decide

/-! Storage scan lemmas for the downsampling claim. -/

theorem scanStep_same_bucket (metricName : String) (filters : Labels)
    (startNs endNs step b : Int) (L : Labels) (w : ℚ) (m : StoredMetric)
    (hname : m.name = metricName) (hlab : m.labels = L)
    (hts : ¬ (m.timestampNs < startNs ∨ endNs < m.timestampNs))
    (hfil : matchesFilters m filters = true)
    (hb : bucketOf m.timestampNs step = b) :
    scanStep metricName filters startNs endNs step
      [(seriesKey L, ⟨L, [⟨b, w⟩]⟩)] m
      = [(seriesKey L, ⟨L, [⟨b, pairAvg w m.value⟩]⟩)] := by
  simp [scanStep, hname, hlab, hts, hfil, hb, alookup, aupdate,
    addSampleToBuckets, pairAvg]

theorem scan_fold_single_bucket (metricName : String) (filters : Labels)
    (startNs endNs step b : Int) (L : Labels) (ms : List StoredMetric) (w : ℚ)
    (hall : ∀ m ∈ ms, m.name = metricName ∧ m.labels = L ∧
        ¬ (m.timestampNs < startNs ∨ endNs < m.timestampNs) ∧
        matchesFilters m filters = true ∧ bucketOf m.timestampNs step = b) :
    ms.foldl (scanStep metricName filters startNs endNs step)
        [(seriesKey L, ⟨L, [⟨b, w⟩]⟩)]
      = [(seriesKey L, ⟨L, [⟨b, (ms.map StoredMetric.value).foldl pairAvg w⟩]⟩)] := by
  induction ms generalizing w with
  | nil => simp
  | cons m ms ih =>
    obtain ⟨h1, h2, h3, h4, h5⟩ := hall m (by simp)
    simp only [List.foldl_cons, List.map_cons]
    rw [scanStep_same_bucket metricName filters startNs endNs step b L w m h1 h2 h3 h4 h5]
    exact ih (pairAvg w m.value) (fun m' hm' => hall m' (List.mem_cons_of_mem _ hm'))

/-- C2 counterexample: three stored samples of the same series with values 0,
    0 and 3 land in one bucket; the arithmetic mean is 1, but the query
    returns 3/2 because the loop averages pairwise into the accumulated bucket
    value instead of computing the mean. -/
theorem query_mean_counterexample :
    queryMetricsScan "cpu" [] 0 10 10 meanStored
      = [⟨[("a", "1")], [⟨0, 3 / 2⟩]⟩] ∧
    listMean (meanStored.map StoredMetric.value) = 1 ∧
    (3 / 2 : ℚ) ≠ 1 := by
  refine ⟨?_, ?_, by norm_num⟩
  · norm_num [meanStored, queryMetricsScan, scanStep, matchesFilters, seriesKey,
      sortStrs, insortStr, labelGet, bucketOf, alookup, aupdate, addSampleToBuckets]
  · norm_num [meanStored, listMean]

/-- C2 amended: for N stored samples of one series falling into one bucket,
    the value returned for that bucket is the left fold of the sample values
    (in key scan order) under pairAvg, so each incoming sample is averaged
    with the accumulated bucket value.  This equals the arithmetic mean only
    for N at most 2; later samples carry exponentially larger weight. -/
theorem query_bucket_pairwise_fold (metricName : String) (filters : Labels)
    (startNs endNs step b : Int) (L : Labels) (m0 : StoredMetric)
    (ms : List StoredMetric)
    (hall : ∀ m ∈ m0 :: ms, m.name = metricName ∧ m.labels = L ∧
        ¬ (m.timestampNs < startNs ∨ endNs < m.timestampNs) ∧
        matchesFilters m filters = true ∧ bucketOf m.timestampNs step = b) :
    queryMetricsScan metricName filters startNs endNs step (m0 :: ms)
      = [⟨L, [⟨b, (ms.map StoredMetric.value).foldl pairAvg m0.value⟩]⟩] := by
  obtain ⟨h1, h2, h3, h4, h5⟩ := hall m0 (by simp)
  unfold queryMetricsScan
  simp only [List.foldl_cons]
  have hfirst : scanStep metricName filters startNs endNs step [] m0
      = [(seriesKey L, ⟨L, [⟨b, m0.value⟩]⟩)] := by
    simp [scanStep, h1, h2, h3, h4, h5, alookup]
  rw [hfirst,
    scan_fold_single_bucket metricName filters startNs endNs step b L ms m0.value
      (fun m' hm' => hall m' (by simp [hm']))]
  simp

/-- C2 witness: the amended statement at the three concrete samples; the fold
    yields 3/2. -/
theorem query_bucket_pairwise_fold_witness :
    queryMetricsScan "cpu" [] 0 10 10 meanStored
      = [⟨[("a", "1")],
          [⟨0, ([(⟨"cpu", 0, 1, [("a", "1")]⟩ : StoredMetric),
                 ⟨"cpu", 3, 2, [("a", "1")]⟩].map StoredMetric.value).foldl pairAvg 0⟩]⟩] :=
  query_bucket_pairwise_fold "cpu" [] 0 10 10 0 [("a", "1")]
    ⟨"cpu", 0, 0, [("a", "1")]⟩
    [⟨"cpu", 0, 1, [("a", "1")]⟩, ⟨"cpu", 3, 2, [("a", "1")]⟩]
    (by decide)

/-- C3: the claim (and the spec) require a sample to contribute only when its
    labels satisfy every equality filter.  The query path of TimeSeriesDB
    builds the filter string from labelPairs[0] alone, so only one filter of
    the query takes effect: a stored sample in range that satisfies the first
    filter but violates the second is returned.  The spec itself flags the
    source behaviour as a bug. -/
theorem tsdb_query_first_filter_only :
    twoFilterQuery.labels.length ≥ 2 ∧
    labelGet mismatchedSample.labels "b" ≠ "2" ∧
    tsdbQueryMetrics twoFilterQuery [mismatchedSample]
      = [⟨[("a", "1"), ("b", "3")], [⟨0, 5⟩]⟩] := by
  decide

/-- C4: the claim asserts that the rate emitted on the second tick equals the
    counter delta divided by the actually elapsed wall time.  The network
    collector instead divides every delta by the constant float64(time.Second),
    which is 1e9 (a Duration counts nanoseconds), and never reads the elapsed
    time.  Concretely: two observations 2 seconds apart with counter values 0
    and then 2000 should yield 1000 per second, but the collector emits
    2000/1e9, that is 1/500000. -/
theorem network_rate_fixed_divisor :
    (collectNetworkInterface (some netPrev) netCurr).head?.map CMetric.value
      = some (1 / 500000 : ℚ) ∧
    specCounterRate 0 2000 0 2000000000 = 1000 ∧
    (1 / 500000 : ℚ) ≠ 1000 := by
  refine ⟨?_, ?_, by norm_num⟩
  · norm_num [collectNetworkInterface, netPrev, netCurr, netRate, u64sub, networkTimeDelta]
  · norm_num [specCounterRate]

/-! Decimal digit lemmas for the key encoding claim. -/

theorem padDigits_length (n len : Nat) : (padDigits n len).length = len := by
  induction len generalizing n with
  | zero => rfl
  | succ k ih => simp [padDigits, ih]

theorem lt_ten_pow_numDigitsAux (fuel n : Nat) (h : n ≤ fuel) :
    n < 10 ^ numDigitsAux fuel n := by
  induction fuel generalizing n with
  | zero =>
    have : n = 0 := Nat.le_zero.mp h
    subst this
    simp [numDigitsAux]
  | succ f ih =>
    by_cases h10 : n < 10
    · simp [numDigitsAux, h10]
    · have hn : 0 < n := by omega
      have hdiv : n / 10 ≤ f := by
        have : n / 10 < n := Nat.div_lt_self hn (by omega)
        omega
      have hlt := ih (n / 10) hdiv
      have : n < 10 ^ numDigitsAux f (n / 10) * 10 :=
        (Nat.div_lt_iff_lt_mul (by omega)).mp hlt
      simpa [numDigitsAux, h10, pow_succ] using this

theorem lt_ten_pow_numDigits (n : Nat) : n < 10 ^ numDigits n :=
  lt_ten_pow_numDigitsAux n n (Nat.le_refl n)

theorem bytesLt_padDigits_of_lt (len a b : Nat) (hab : a < b) (hb : b < 10 ^ len) :
    bytesLt (padDigits a len) (padDigits b len) = true := by
  induction len generalizing a b with
  | zero =>
    simp only [pow_zero] at hb
    omega
  | succ k ih =>
    have hpow : 0 < 10 ^ k := Nat.pos_pow_of_pos k (by omega)
    simp only [padDigits, bytesLt]
    by_cases h1 : 48 + a / 10 ^ k < 48 + b / 10 ^ k
    · simp [h1]
    · have hle : a / 10 ^ k ≤ b / 10 ^ k :=
        Nat.div_le_div_right (Nat.le_of_lt hab)
      have hq : a / 10 ^ k = b / 10 ^ k := by omega
      have h2 : ¬ 48 + b / 10 ^ k < 48 + a / 10 ^ k := by omega
      simp only [h1, h2, if_false]
      apply ih
      · have ha' := Nat.div_add_mod a (10 ^ k)
        have hb' := Nat.div_add_mod b (10 ^ k)
        rw [hq] at ha'
        omega
      · exact Nat.mod_lt _ hpow

theorem bytesLt_append_left (p x y : List Nat) :
    bytesLt (p ++ x) (p ++ y) = bytesLt x y := by
  induction p with
  | nil => rfl
  | cons a as ih => simp [bytesLt, ih]

theorem bytesLt_append_of_length_eq (x y s t : List Nat)
    (hlen : x.length = y.length) (hxy : bytesLt x y = true) :
    bytesLt (x ++ s) (y ++ t) = true := by
  induction x generalizing y with
  | nil =>
    cases y with
    | nil => simp [bytesLt] at hxy
    | cons b bs => simp at hlen
  | cons a as ih =>
    cases y with
    | nil => simp at hlen
    | cons b bs =>
      simp only [bytesLt, List.cons_append] at hxy ⊢
      by_cases h1 : a < b
      · simp [h1]
      · by_cases h2 : b < a
        · simp [h1, h2] at hxy
        · simp only [h1, h2, if_false] at hxy ⊢
          exact ih bs (by simpa using hlen) hxy

/-- C5 counterexample: the claim asserts that, the timestamp being encoded as
    a zero-padded decimal, keys compare in timestamp order for all timestamp
    values.  The encoding actually uses the unpadded percent-d verb: for
    timestamps 9 and 10 with the same metric name, the key of the earlier
    sample compares strictly greater, so a prefix scan visits them out of time
    order. -/
theorem metric_key_order_counterexample :
    (9 : Nat) < 10 ∧
    decRepr 9 = strBytes "9" ∧
    decRepr 10 = strBytes "10" ∧
    bytesLt (encodeMetricKey "m" 9 "aabbccdd") (encodeMetricKey "m" 10 "aabbccdd") = false ∧
    bytesLt (encodeMetricKey "m" 10 "aabbccdd") (encodeMetricKey "m" 9 "aabbccdd") = true := by
  decide

/-- C5 amended: for two samples with the same metric name whose timestamps
    have the same number of decimal digits (which covers all realistic
    nanosecond timestamps, as every time between 2001 and 2286 has 19 digits),
    the encoded keys compare lexicographically in timestamp order, whatever
    the label hashes are.  Without the equal-digit-count restriction the
    ordering fails, as the counterexample shows. -/
theorem metric_key_order_same_digits (name hash1 hash2 : String) (a b : Nat)
    (hd : numDigits a = numDigits b) (hab : a < b) :
    bytesLt (encodeMetricKey name a hash1) (encodeMetricKey name b hash2) = true := by
  unfold encodeMetricKey
  simp only [List.append_assoc]
  rw [bytesLt_append_left, bytesLt_append_left, bytesLt_append_left]
  apply bytesLt_append_of_length_eq
  · simp [decRepr, padDigits_length, hd]
  · unfold decRepr
    rw [hd]
    exact bytesLt_padDigits_of_lt (numDigits b) a b hab (lt_ten_pow_numDigits b)

/-- C5 witness: timestamps 11 and 12 have the same digit count and their keys
    compare in timestamp order. -/
theorem metric_key_order_same_digits_witness :
    numDigits 11 = numDigits 12 ∧ (11 : Nat) < 12 ∧
    bytesLt (encodeMetricKey "cpu" 11 "h1") (encodeMetricKey "cpu" 12 "h2") = true :=
  ⟨by decide, by decide,
    metric_key_order_same_digits "cpu" "h1" "h2" 11 12 (by decide) (by decide)⟩

/-- C6 counterexample: the claim asserts that a zero timestamp submitted by
    the agent is replaced with the server receive time before storage.  On the
    concrete stream below, a batch carrying one sample with timestamp 0 is
    committed with timestamp 0 (epoch), not a positive receive time; the node
    id part of the claim does hold (n1 is stamped from the session). -/
theorem zero_timestamp_stored_counterexample :
    register "n1" "s1" = Except.ok ⟨"n1", "s1"⟩ ∧
    streamMetrics [("s1", ⟨"n1", "s1"⟩)] ⟨"s1", []⟩ [⟨"s1", [zeroTsPb]⟩]
      = (GrpcOutcome.closed,
        [ServerEffect.writeMetrics [⟨"n1", "cpu", 1, 0, [], 0, "", ""⟩],
         ServerEffect.checkAlerts "n1" [⟨"n1", "cpu", 1, 0, [], 0, "", ""⟩],
         ServerEffect.updateNodeStatusHealthy "n1"]) ∧
    ¬ ((0 : Int) > 0) :=
  ⟨rfl, by decide, by decide⟩

/-- C6 amended: for every batch on an authenticated stream, every committed
    sample has its node id stamped from the session (overriding any value the
    agent sent), and the session node id is non-empty because registration
    rejects empty node ids; the timestamp however is passed through unchanged,
    so a zero timestamp is stored as zero rather than being replaced by the
    receive time. -/
theorem process_metrics_stamps_node_id (reqNodeId sid : String) (sess : Session)
    (batch : MetricBatch)
    (hreg : register reqNodeId sid = Except.ok sess) :
    sess.nodeID ≠ "" ∧
    processMetrics sess batch
      = [ServerEffect.writeMetrics (batch.metrics.map (convertMetric sess)),
         ServerEffect.checkAlerts sess.nodeID (batch.metrics.map (convertMetric sess)),
         ServerEffect.updateNodeStatusHealthy sess.nodeID] ∧
    ∀ pb ∈ batch.metrics,
      (convertMetric sess pb).nodeID = sess.nodeID ∧
      (convertMetric sess pb).timestampNs = pb.timestampNs := by
  unfold register at hreg
  by_cases h : reqNodeId = ""
  · simp [h] at hreg
  · simp only [h, if_false, Except.ok.injEq] at hreg
    refine ⟨?_, rfl, ?_⟩
    · rw [← hreg]
      exact h
    · intro pb _
      exact ⟨rfl, rfl⟩

/-- C6 witness: the amended statement at a concrete registration and batch. -/
theorem process_metrics_stamps_node_id_witness :
    Session.nodeID ⟨"n1", "s1"⟩ ≠ "" ∧
    processMetrics ⟨"n1", "s1"⟩ ⟨"s1", [zeroTsPb]⟩
      = [ServerEffect.writeMetrics ([zeroTsPb].map (convertMetric ⟨"n1", "s1"⟩)),
         ServerEffect.checkAlerts (Session.nodeID ⟨"n1", "s1"⟩)
           ([zeroTsPb].map (convertMetric ⟨"n1", "s1"⟩)),
         ServerEffect.updateNodeStatusHealthy (Session.nodeID ⟨"n1", "s1"⟩)] ∧
    ∀ pb ∈ [zeroTsPb],
      (convertMetric ⟨"n1", "s1"⟩ pb).nodeID = Session.nodeID ⟨"n1", "s1"⟩ ∧
      (convertMetric ⟨"n1", "s1"⟩ pb).timestampNs = pb.timestampNs :=
  process_metrics_stamps_node_id "n1" "s1" ⟨"n1", "s1"⟩ ⟨"s1", [zeroTsPb]⟩ rfl

/-- C7: a metrics stream whose first frame carries a session id that is not in
    the session registry is closed with the unauthenticated status, and no
    storage write, alert engine call or node status update is performed for
    that stream. -/
theorem unknown_session_no_side_effects (sessions : List (String × Session))
    (firstMsg : MetricBatch) (frames : List MetricBatch)
    (hne : firstMsg.sessionId ≠ "")
    (hunknown : alookup firstMsg.sessionId sessions = none) :
    streamMetrics sessions firstMsg frames = (GrpcOutcome.errUnauthenticated, []) := by
  simp [streamMetrics, hne, hunknown]

/-- C7 witness: a registry holding session s1 rejects a stream opened with s2,
    even when later frames carry samples. -/
theorem unknown_session_no_side_effects_witness :
    ("s2" : String) ≠ "" ∧
    alookup "s2" [("s1", Session.mk "n1" "s1")] = none ∧
    streamMetrics [("s1", Session.mk "n1" "s1")] ⟨"s2", []⟩
        [⟨"s2", [⟨"cpu", 1, 5, [], 0, "", ""⟩]⟩]
      = (GrpcOutcome.errUnauthenticated, []) :=
  ⟨by decide, by decide,
    unknown_session_no_side_effects [("s1", Session.mk "n1" "s1")] ⟨"s2", []⟩
      [⟨"s2", [⟨"cpu", 1, 5, [], 0, "", ""⟩]⟩] (by decide) (by decide)⟩

end Lnmonja
